import Mathlib

/-!
Shallow embedding of the commerce core of the `E-commerce3` repository:
the session-backed shopping cart (`cart/cart.py`), the order engine
(`orders/views.py`) and the review helpful-vote toggle (`reviews/views.py`,
`reviews/models.py`).

Modelling conventions:
* Python `Decimal` amounts are modelled as `Rat` (the source only adds and
  multiplies decimals by integers, which is exact in `Decimal` and in `Rat`);
  Python `int` is modelled as `Int`.
* A Python dict keyed by strings (the cart blob) is modelled as an
  association list `List (String × CartLine)` in insertion order, mirroring
  Python dict ordering.  A new key is appended; an update rewrites in place.
* `Cart.__init__` aliases `self.cart` to the session dict, so in-place
  mutations touch both; `Cart.clear` rebinds the session key to a fresh dict,
  breaking the alias.  `CartState` carries both mappings plus an `aliased`
  flag, and `cartMutate` applies an in-place mutation to both sides of the
  alias.  `modified` is Django's `session.modified` flag.
* Exceptions that functions raise are returned as explicit error values;
  where the source mutates state before raising, the returned state carries
  those mutations, exactly as the Python object would.
-/

/-- Catalog product, from `products/models.py` (`Product`): the fields the
cart and order engine read.  `stock` is a `PositiveIntegerField` and
`price` a `DecimalField`. -/
structure Product where
  id : Nat
  name : String
  price : Rat
  available : Bool
  stock : Int
  image : String
deriving DecidableEq

/-- One cart line, the dict built in `Cart.add` (`cart/cart.py` lines 35-41):
`{'product_id', 'name', 'price', 'quantity', 'image'}`.  The price is stored
as `str(product.price)` and parsed back with `Decimal`, an exact round trip,
so it is kept as the number itself. -/
structure CartLine where
  product_id : String
  name : String
  price : Rat
  quantity : Int
  image : String
deriving DecidableEq

/-- State of one `Cart` object together with its session:
`session` is the dict stored under `settings.CART_SESSION_ID`,
`lines` is `self.cart`, `aliased` says whether the two are the same
Python object, `modified` is `session.modified`. -/
structure CartState where
  session : List (String × CartLine)
  lines : List (String × CartLine)
  aliased : Bool
  modified : Bool
deriving DecidableEq

/-- Dict lookup `m[pid]` on the cart blob. -/
def lookupLine (m : List (String × CartLine)) (pid : String) : Option CartLine :=
  (m.find? (fun pr => pr.1 == pid)).map Prod.snd

/-- In-place update `m[pid]['quantity'] = q`. -/
def updateQty (m : List (String × CartLine)) (pid : String) (q : Int) :
    List (String × CartLine) :=
  m.map (fun pr => if pr.1 == pid then (pr.1, { pr.2 with quantity := q }) else pr)

/-- `del m[pid]`. -/
def delLine (m : List (String × CartLine)) (pid : String) :
    List (String × CartLine) :=
  m.filter (fun pr => !(pr.1 == pid))

/-- Current quantity of a line, defaulting to the `0` that `Cart.add` writes
into a freshly inserted line. -/
def oldQty (m : List (String × CartLine)) (pid : String) : Int :=
  ((lookupLine m pid).map (fun l => l.quantity)).getD 0

/-- Apply an in-place dict mutation to `self.cart`; when the session dict is
the same object the session sees the mutation too. -/
def cartMutate (st : CartState)
    (f : List (String × CartLine) → List (String × CartLine)) : CartState :=
  { st with
    lines := f st.lines
    session := if st.aliased = true then f st.session else st.session }

/-- `Cart.__init__` (`cart/cart.py` lines 13-22): read the session blob; a
missing or empty blob is replaced by a fresh `{}` (a session write, so
`modified` is set); either way `self.cart` aliases the session dict. -/
def Cart.init (blob : List (String × CartLine)) : CartState :=
  if blob = [] then
    { session := [], lines := [], aliased := true, modified := true }
  else
    { session := blob, lines := blob, aliased := true, modified := false }

/-- `Cart.save` (`cart/cart.py` lines 56-62): store `self.cart` under the
session key (re-establishing the alias) and set `session.modified`. -/
def Cart.save (st : CartState) : CartState :=
  { st with session := st.lines, aliased := true, modified := true }

/-- `Cart.remove` (`cart/cart.py` lines 64-71): delete the line if present,
then save; removing an absent line is a no-op. -/
def Cart.remove (st : CartState) (product_id : String) : CartState :=
  if (lookupLine st.lines product_id).isSome = true then
    Cart.save (cartMutate st (fun m => delLine m product_id))
  else st

/-- `Cart.clear` (`cart/cart.py` lines 73-79): rebind the session key to a
fresh empty dict.  `self.cart` still points at the old dict, so the alias is
broken and `lines` keeps the old contents. -/
def Cart.clear (st : CartState) : CartState :=
  { st with session := [], aliased := false, modified := true }

/-- The errors `Cart.add` raises as `ValueError`. -/
inductive CartError where
  | unavailable (name : String)
  | outOfStock (name : String) (stock : Int)
deriving DecidableEq

/-- The fresh line dict `Cart.add` inserts for a new product
(`cart/cart.py` lines 35-41), quantity `0`. -/
def newLine (product : Product) : CartLine :=
  { product_id := toString product.id
    name := product.name
    price := product.price
    quantity := 0
    image := product.image }

/-- `Cart.add` (`cart/cart.py` lines 24-54).  Order of effects mirrors the
source: availability guard raises before any mutation; an absent line is
inserted with quantity 0; the quantity is then set (override) or
incremented; only then is the stock bound checked, and the `ValueError`
is raised after the in-place mutation, which is therefore visible in the
returned state; a quantity ≤ 0 removes the line; finally `self.save()`. -/
def Cart.add (st : CartState) (product : Product) (quantity : Int)
    (override_quantity : Bool) : Option CartError × CartState :=
  if product.available = false then
    (some (CartError.unavailable product.name), st)
  else
    let pid := toString product.id
    let st1 := if (lookupLine st.lines pid).isSome = true then st
      else cartMutate st (fun m => m ++ [(pid, newLine product)])
    let newq := if override_quantity then quantity else oldQty st.lines pid + quantity
    let st2 := cartMutate st1 (fun m => updateQty m pid newq)
    if product.stock < newq then
      (some (CartError.outOfStock product.name product.stock), st2)
    else if newq ≤ 0 then
      (none, Cart.save (Cart.remove st2 pid))
    else
      (none, Cart.save st2)

/-- `Cart.__len__` (`cart/cart.py` lines 104-108): total quantity over lines
with positive quantity. -/
def Cart.len (st : CartState) : Int :=
  ((st.lines.filter (fun pr => decide (0 < pr.2.quantity))).map
    (fun pr => pr.2.quantity)).sum

/-- `Cart.get_total_items` (`cart/cart.py` lines 116-120) delegates to
`__len__`. -/
def Cart.get_total_items (st : CartState) : Int :=
  Cart.len st

/-- `Cart.get_total_price` (`cart/cart.py` lines 110-114): sum of
`Decimal(price) * quantity` over lines with positive quantity. -/
def Cart.get_total_price (st : CartState) : Rat :=
  ((st.lines.filter (fun pr => decide (0 < pr.2.quantity))).map
    (fun pr => pr.2.price * (pr.2.quantity : Rat))).sum

/-- The enriched record `Cart.__iter__` yields (`cart/cart.py`
lines 94-102). -/
structure Enriched where
  product : Product
  product_id : String
  name : String
  quantity : Int
  price : Rat
  total_price : Rat
  image : String
deriving DecidableEq

/-- `Product.objects.filter(id__in=...)` lookup of one id, as used by the
`product_map` in `Cart.__iter__`: the cart key matches `str(product.id)`. -/
def findProduct (catalog : List Product) (pid : String) : Option Product :=
  catalog.find? (fun p => toString p.id == pid)

/-- Build one yielded record of `Cart.__iter__`. -/
def mkEnriched (product : Product) (pr : String × CartLine) : Enriched :=
  { product := product
    product_id := pr.1
    name := pr.2.name
    quantity := pr.2.quantity
    price := pr.2.price
    total_price := pr.2.price * (pr.2.quantity : Rat)
    image := pr.2.image }

/-- Walk of `Cart.__iter__` (`cart/cart.py` lines 81-102) over the entries of
`self.cart.items()`.  A line whose product is missing is removed via
`self.remove` — a `del` on the dict being iterated — so the very next
advance of the dict iterator raises `RuntimeError: dictionary changed size
during iteration` (CPython checks the size before the exhaustion check).
The walk therefore stops at the first missing product: the flag in the
result records that the iteration raised, and the returned state carries the
single removal that did happen. -/
def cartIterAux (catalog : List Product) (st : CartState) :
    List (String × CartLine) → List Enriched × Bool × CartState
  | [] => ([], false, st)
  | pr :: rest =>
    match findProduct catalog pr.1 with
    | none => ([], true, Cart.remove st pr.1)
    | some product =>
      let r := cartIterAux catalog st rest
      (mkEnriched product pr :: r.1, r.2.1, r.2.2)

/-- `for item in cart:` — iterate `Cart.__iter__` to exhaustion (or to its
`RuntimeError`).  Returns the yielded records, whether the iteration raised,
and the cart state afterwards. -/
def Cart.iter (catalog : List Product) (st : CartState) :
    List Enriched × Bool × CartState :=
  cartIterAux catalog st st.lines

/-- One persisted `OrderItem` row (`orders/views.py` lines 57-62 builds them
with the snapshot `price=item["price"]` and `quantity`), nested under its
order. -/
structure OrderItemRec where
  product_id : Nat
  price : Rat
  quantity : Int
deriving DecidableEq

/-- One persisted `Order` row with its items.  The `Order` model file is not
under `src/`; the fields used by `orders/views.py` are modelled, and the
initial status comes from the spec (order creation step 3: initial
status = pending). -/
structure OrderRec where
  id : Nat
  user : Nat
  status : String
  items : List OrderItemRec
deriving DecidableEq

/-- The durable store the order engine reads and writes: the product table
and the order table. -/
structure StoreState where
  catalog : List Product
  orders : List OrderRec
deriving DecidableEq

/-- `_is_valid_cart_item` (`orders/views.py` lines 250-261): the required
keys are always present on a record yielded by `Cart.__iter__`; the checks
that remain are positive quantity and positive price. -/
def is_valid_cart_item (item : Enriched) : Bool :=
  decide (0 < item.quantity) && decide (0 < item.price)

/-- The `stock_errors` list collected by `order_create` (`orders/views.py`
lines 42-54): one `(name, requested, available)` entry per valid line whose
requested quantity exceeds live stock. -/
def stockErrorsOf (ys : List Enriched) : List (String × Int × Int) :=
  (ys.filter (fun e => is_valid_cart_item e && decide (e.product.stock < e.quantity))).map
    (fun e => (e.product.name, e.quantity, e.product.stock))

/-- The `order_items` list built by `order_create` (`orders/views.py`
lines 56-62): one item per valid line with sufficient stock, at the
snapshot price. -/
def orderItemsOf (ys : List Enriched) : List OrderItemRec :=
  (ys.filter (fun e => is_valid_cart_item e && decide (e.quantity ≤ e.product.stock))).map
    (fun e => { product_id := e.product.id, price := e.price, quantity := e.quantity })

/-- The stock-update loop of `order_create` (`orders/views.py` lines 80-85):
for each yielded item that is valid and whose fetched stock covers the
quantity, write `stock := fetched_stock - quantity` (the fetch happened once
at the start of the second iteration). -/
def applyDecrements (catalog : List Product) (ys : List Enriched) : List Product :=
  ys.foldl
    (fun cat e =>
      if is_valid_cart_item e && decide (e.quantity ≤ e.product.stock) then
        cat.map (fun p =>
          if p.id = e.product.id then { p with stock := e.product.stock - e.quantity } else p)
      else cat)
    catalog

/-- Outcome of `order_create` as surfaced to the visitor. -/
inductive OrderResult where
  | emptyCart
  | insufficientStock (details : List (String × Int × Int))
  | noValidItems
  | genericFailure
  | success (orderId : Nat)
deriving DecidableEq

/-- `order_create` (`orders/views.py` lines 15-111), on the POST path with a
valid form.  `newOrderId` is the id the database assigns to the saved order
header.  Django semantics is modelled exactly:
* `transaction.atomic()` rolls back only when an exception escapes the
  block; the `return redirect(...)` statements inside the block are a
  normal exit and therefore COMMIT whatever was already written — in the
  `stock_errors` and no-valid-items branches the order header saved at the
  top of the block stays committed;
* the `RuntimeError` that `Cart.__iter__` raises when it removes a stale
  line propagates, rolls the store back, and lands in the generic
  `except Exception` branch; the session-backed cart removal survives
  because the session is written outside the transaction;
* the Cart is iterated twice (once to validate, once to decrement stock),
  and `cart.clear()` runs before the final commit. -/
def order_create (user : Nat) (st : CartState) (store : StoreState) (newOrderId : Nat) :
    OrderResult × CartState × StoreState :=
  if Cart.len st = 0 then
    (OrderResult.emptyCart, st, store)
  else
    let store1 : StoreState :=
      { store with orders := store.orders ++ [⟨newOrderId, user, "pending", []⟩] }
    let it1 := Cart.iter store1.catalog st
    if it1.2.1 = true then
      (OrderResult.genericFailure, it1.2.2, store)
    else
      let ys := it1.1
      let errs := stockErrorsOf ys
      if errs = [] then
        let items := orderItemsOf ys
        if items = [] then
          (OrderResult.noValidItems, it1.2.2, store1)
        else
          let store2 : StoreState :=
            { store1 with
              orders := store1.orders.map
                (fun o => if o.id = newOrderId then { o with items := items } else o) }
          let it2 := Cart.iter store2.catalog it1.2.2
          if it2.2.1 = true then
            (OrderResult.genericFailure, it2.2.2, store)
          else
            let store3 : StoreState :=
              { store2 with catalog := applyDecrements store2.catalog it2.1 }
            (OrderResult.success newOrderId, Cart.clear it2.2.2, store3)
      else
        (OrderResult.insufficientStock errs, it1.2.2, store1)

/-- Modelled from the spec: the order total.  The `Order` model (and its
total-cost method) is not under `src/`; per the spec, an order's total is
the sum over its items of (unit price at time of purchase × quantity). -/
def orderTotal (o : OrderRec) : Rat :=
  (o.items.map (fun it => it.price * (it.quantity : Rat))).sum

/-- Outcome of `order_cancel` as surfaced to the visitor. -/
inductive CancelResult where
  | notFound
  | invalidTransition
  | cancelled
deriving DecidableEq

/-- The stock-restoration loop of `order_cancel` (`orders/views.py`
lines 190-193): each item's product row gets `stock += item.quantity`,
reading the current row inside the transaction. -/
def restoreStock (catalog : List Product) (items : List OrderItemRec) : List Product :=
  items.foldl
    (fun cat it =>
      cat.map (fun p =>
        if p.id = it.product_id then { p with stock := p.stock + it.quantity } else p))
    catalog

/-- Quantity restored to product `i` by a list of order items. -/
def restoredQty (items : List OrderItemRec) (i : Nat) : Int :=
  ((items.filter (fun it => it.product_id == i)).map (fun it => it.quantity)).sum

/-- `order_cancel` (`orders/views.py` lines 169-210), on the POST path:
`get_object_or_404(Order, id=order_id, user=request.user)` fails for a
non-owner; a status outside {pending, processing} is rejected before any
mutation; otherwise, inside one transaction, every item's product stock is
restored and the status set to `cancelled`. -/
def order_cancel (user : Nat) (orderId : Nat) (store : StoreState) :
    CancelResult × StoreState :=
  match store.orders.find? (fun o => o.id == orderId && o.user == user) with
  | none => (CancelResult.notFound, store)
  | some order =>
    if order.status ≠ "pending" ∧ order.status ≠ "processing" then
      (CancelResult.invalidTransition, store)
    else
      (CancelResult.cancelled,
        { catalog := restoreStock store.catalog order.items
          orders := store.orders.map
            (fun o => if o.id = orderId then { o with status := "cancelled" } else o) })

/-- A review as read by `mark_helpful` (`reviews/models.py` `Review`):
its id and owner. -/
structure ReviewRec where
  id : Nat
  user : Nat
deriving DecidableEq

/-- Outcome of `mark_helpful`: the JSON payload of `reviews/views.py`
lines 100 and 116-120. -/
inductive HelpfulResult where
  | selfVote
  | toggled (is_helpful : Bool) (helpful_count : Nat)
deriving DecidableEq

/-- Rows of the `ReviewHelpful` table (`reviews/models.py` lines 47-54):
one `(review_id, user_id)` pair per vote, unique together. -/
def countVotes (votes : List (Nat × Nat)) (reviewId : Nat) : Nat :=
  (votes.filter (fun v => v.1 == reviewId)).length

/-- `mark_helpful` (`reviews/views.py` lines 92-120): an owner is refused;
otherwise `get_or_create` either finds the existing `(review, user)` row —
which is then deleted (the vote is removed) — or inserts a new row; the
response carries `is_helpful` and the fresh `helpful_votes.count()`. -/
def mark_helpful (votes : List (Nat × Nat)) (review : ReviewRec) (user : Nat) :
    HelpfulResult × List (Nat × Nat) :=
  if review.user = user then
    (HelpfulResult.selfVote, votes)
  else if (review.id, user) ∈ votes then
    let votes1 := votes.erase (review.id, user)
    (HelpfulResult.toggled false (countVotes votes1 review.id), votes1)
  else
    let votes1 := votes ++ [(review.id, user)]
    (HelpfulResult.toggled true (countVotes votes1 review.id), votes1)

/-- State of the stock race between two concurrent `order_create` requests
restricted to one product: the committed stock row, and per request the
stock value its cart iteration fetched (`orders/views.py` line 42 /
line 81) and whether the request succeeded. -/
structure RaceState where
  stock : Int
  read1 : Option Int
  done1 : Option Bool
  read2 : Option Int
  done2 : Option Bool
deriving DecidableEq

/-- Atomic events of the race: each request reads the product row once and
later commits.  The commit replays `order_create`'s check-then-write
(`orders/views.py` lines 52 and 82-85): with the FETCHED stock value `v`,
if `quantity ≤ v` the request succeeds and writes `stock := v - quantity`
(the source uses no row lock and no F-expression, so the write is a plain
last-write of the stale computation); otherwise it fails with insufficient
stock. -/
inductive RaceEvent where
  | read1
  | commit1
  | read2
  | commit2
deriving DecidableEq

/-- One step of the interleaved execution. -/
def raceStep (q1 q2 : Int) (s : RaceState) : RaceEvent → RaceState
  | RaceEvent.read1 =>
    if s.read1 = none then { s with read1 := some s.stock } else s
  | RaceEvent.commit1 =>
    match s.read1, s.done1 with
    | some v, none =>
      if q1 ≤ v then { s with stock := v - q1, done1 := some true }
      else { s with done1 := some false }
    | _, _ => s
  | RaceEvent.read2 =>
    if s.read2 = none then { s with read2 := some s.stock } else s
  | RaceEvent.commit2 =>
    match s.read2, s.done2 with
    | some v, none =>
      if q2 ≤ v then { s with stock := v - q2, done2 := some true }
      else { s with done2 := some false }
    | _, _ => s

/-- Run an interleaving of the two requests from an initial stock. -/
def raceRun (q1 q2 : Int) (stock0 : Int) (evs : List RaceEvent) : RaceState :=
  evs.foldl (raceStep q1 q2) { stock := stock0, read1 := none, done1 := none, read2 := none, done2 := none }

/-- Observable: the quantity the cart stores for a product key. -/
def lineQty (st : CartState) (pid : String) : Option Int :=
  (lookupLine st.lines pid).map (fun l => l.quantity)

/-- The record `Cart.__iter__` yields for one line when its product
resolves, `none` when it does not; used to state iteration results. -/
def enrichWith (catalog : List Product) (pr : String × CartLine) : Option Enriched :=
  (findProduct catalog pr.1).map (fun p => mkEnriched p pr)

/-- The quantity-positivity invariant of the cart blob (spec §3): every
stored line, in the instance dict and in the session dict, has a positive
quantity. -/
def cartQtyInv (st : CartState) : Prop :=
  (∀ pr ∈ st.lines, 0 < pr.2.quantity) ∧ (∀ pr ∈ st.session, 0 < pr.2.quantity)

/-- Concrete product with stock 1, for evaluating the insufficient-stock
path of `order_create`. -/
def productA1 : Product := ⟨1, "A", 10, true, 1, ""⟩

/-- Concrete cart line requesting 2 units of product 1 at snapshot
price 10. -/
def lineA2 : CartLine := ⟨"1", "A", 10, 2, ""⟩

/-- Concrete cart holding `lineA2`. -/
def stC1 : CartState := ⟨[("1", lineA2)], [("1", lineA2)], true, false⟩

/-- Concrete store: catalog `[productA1]`, no orders yet. -/
def storeC1 : StoreState := ⟨[productA1], []⟩

/-- Concrete product 2 for the stale-cart iteration run. -/
def productB4 : Product := ⟨2, "B", 5, true, 4, ""⟩

/-- Concrete cart with a stale line (product 1 was deleted from the
catalog) followed by a live line for product 2. -/
def stStale : CartState :=
  ⟨[("1", ⟨"1", "A", 10, 1, ""⟩), ("2", ⟨"2", "B", 5, 1, ""⟩)],
   [("1", ⟨"1", "A", 10, 1, ""⟩), ("2", ⟨"2", "B", 5, 1, ""⟩)], true, false⟩

/-- Concrete product A with stock 5 for the round-trip order. -/
def productA : Product := ⟨1, "A", 10, true, 5, ""⟩

/-- Concrete product B with stock 4 for the round-trip order. -/
def productB : Product := ⟨2, "B", 5, true, 4, ""⟩

/-- Concrete store for the round-trip order. -/
def storeAB : StoreState := ⟨[productA, productB], []⟩

/-- Concrete cart with lines (A, qty 2, price 10.00) and
(B, qty 1, price 5.00). -/
def stAB : CartState :=
  ⟨[("1", ⟨"1", "A", 10, 2, ""⟩), ("2", ⟨"2", "B", 5, 1, ""⟩)],
   [("1", ⟨"1", "A", 10, 2, ""⟩), ("2", ⟨"2", "B", 5, 1, ""⟩)], true, false⟩

/-- Concrete cart with one line at fractional snapshot price 19.99 and
quantity 3. -/
def st1999 : CartState :=
  ⟨[("1", ⟨"1", "gauze", 1999/100, 3, ""⟩)],
   [("1", ⟨"1", "gauze", 1999/100, 3, ""⟩)], true, false⟩

/-- Concrete pending order of user 7 with one item restoring 2 units of
product 1. -/
def orderPending : OrderRec := ⟨11, 7, "pending", [⟨1, 10, 2⟩]⟩

/-- Concrete store holding `orderPending`. -/
def storeCancel : StoreState := ⟨[productA], [orderPending]⟩

/-- Concrete available product with stock 5 for the add/add run. -/
def productSyringe : Product := ⟨1, "syringe", 10, true, 5, ""⟩

/-- The yields and the raised flag of the cart iteration depend only on the
lines being walked and the catalog, not on the state object that receives
the removal side effect. -/
theorem cartIterAux_proj_eq (catalog : List Product) (st st2 : CartState)
    (L : List (String × CartLine)) :
    (cartIterAux catalog st L).1 = (cartIterAux catalog st2 L).1 ∧
    (cartIterAux catalog st L).2.1 = (cartIterAux catalog st2 L).2.1 := by
  induction L with
  | nil => exact ⟨rfl, rfl⟩
  | cons pr rest ih =>
    cases h : findProduct catalog pr.1 with
    | none => simp [cartIterAux, h]
    | some p => simp [cartIterAux, h, ih.1, ih.2]

/-- C10: after `clear()` on a `Cart` instance, the session blob is replaced
by an empty mapping while the instance's own line mapping is untouched:
`get_total_items`, `get_total_price` and iteration on the same instance
still see the old lines, and a freshly constructed `Cart` for the same
session is empty. -/
theorem cart_clear_frame_effect (st : CartState) :
    (Cart.clear st).session = [] ∧
    (Cart.clear st).lines = st.lines ∧
    Cart.get_total_items (Cart.clear st) = Cart.get_total_items st ∧
    Cart.get_total_price (Cart.clear st) = Cart.get_total_price st ∧
    (∀ catalog, (Cart.iter catalog (Cart.clear st)).1 = (Cart.iter catalog st).1 ∧
      (Cart.iter catalog (Cart.clear st)).2.1 = (Cart.iter catalog st).2.1) ∧
    (Cart.init (Cart.clear st).session).lines = [] ∧
    Cart.len (Cart.init (Cart.clear st).session) = 0 := by
  refine ⟨rfl, rfl, rfl, rfl, ?_, rfl, rfl⟩
  intro catalog
  exact cartIterAux_proj_eq catalog (Cart.clear st) st st.lines

/-- C7: `get_total_price` equals the exact decimal sum of
(snapshot price × quantity) over all lines; the arithmetic is exact
rational (`Decimal`) arithmetic, never floating point.  The source filters
on positive quantity, which coincides with the sum over all lines under
the cart's positivity invariant. -/
theorem get_total_price_exact (st : CartState)
    (h : ∀ pr ∈ st.lines, 0 < pr.2.quantity) :
    Cart.get_total_price st =
      (st.lines.map (fun pr => pr.2.price * (pr.2.quantity : Rat))).sum := by
  unfold Cart.get_total_price
  rw [List.filter_eq_self.mpr (fun pr hpr => decide_eq_true (h pr hpr))]

/-- Witness for C7: a line at snapshot price 19.99 with quantity 3
contributes exactly 59.97. -/
theorem get_total_price_exact_witness :
    (∀ pr ∈ st1999.lines, 0 < pr.2.quantity) ∧
    Cart.get_total_price st1999 = 5997/100 :=
  ⟨by decide, (get_total_price_exact st1999 (by decide)).trans (by norm_num [st1999])⟩

/-- C1: evaluating `order_create` at a one-line cart whose requested
quantity 2 exceeds the live stock 1.  The full `InsufficientStock` list is
surfaced, the catalog and the cart are unchanged and no `OrderItem` exists
— but the order header saved at the top of the `transaction.atomic()` block
IS committed (the `return redirect(...)` on the stock-error path exits the
atomic block normally, which commits), contradicting the claim that no
order header is persisted. -/
theorem order_create_insufficient_stock_commits_header :
    (order_create 7 stC1 storeC1 42).1 =
      OrderResult.insufficientStock [("A", 2, 1)] ∧
    (order_create 7 stC1 storeC1 42).2.2.orders = [⟨42, 7, "pending", []⟩] ∧
    (order_create 7 stC1 storeC1 42).2.2.orders ≠ storeC1.orders ∧
    (order_create 7 stC1 storeC1 42).2.2.catalog = storeC1.catalog ∧
    (order_create 7 stC1 storeC1 42).2.1 = stC1 := by
  decide

/-- C2: the stock check and the stock write of `order_create` are a naive
read-then-write with no row lock and no compare-and-set, so in the
interleaving where both requests read the stock row before either commits,
two concurrent orders of 3 units each against stock 5 BOTH succeed (and
the final committed stock is 2 even though 6 units were sold), refuting
the claim that at most one call succeeds. -/
theorem order_create_race_both_succeed :
    (raceRun 3 3 5
      [RaceEvent.read1, RaceEvent.read2, RaceEvent.commit1, RaceEvent.commit2]).done1 =
        some true ∧
    (raceRun 3 3 5
      [RaceEvent.read1, RaceEvent.read2, RaceEvent.commit1, RaceEvent.commit2]).done2 =
        some true ∧
    (raceRun 3 3 5
      [RaceEvent.read1, RaceEvent.read2, RaceEvent.commit1, RaceEvent.commit2]).stock = 2 := by
  decide

/-- C4: evaluating `Cart.__iter__` on a cart whose first line is stale
(product 1 deleted) and whose second line is live.  The stale line is
removed from the cart, but the removal is a `del` on the dict being
iterated, so the iteration raises `RuntimeError` (flag `true`) instead of
terminating normally, and the live line for product 2 is never yielded —
refuting the claim that iteration never raises and yields one record per
resolvable line. -/
theorem cart_iter_stale_line_raises :
    Cart.iter [productB4] stStale =
      ([], true,
        ⟨[("2", ⟨"2", "B", 5, 1, ""⟩)], [("2", ⟨"2", "B", 5, 1, ""⟩)], true, true⟩) := by
  decide

/-- Counterexample to C3 as stated: product with stock 5, `add(p, 3)` then
`add(p, 3, override=False)`.  The second add fails with `OutOfStock` as
claimed, but the cart line is NOT left unchanged at quantity 3: the
increment happens before the stock check and the exception does not undo
it, so the stored quantity is 6. -/
theorem cart_add_no_override_counterexample :
    (Cart.add (Cart.add (Cart.init []) ⟨1, "syringe", 10, true, 5, ""⟩ 3 false).2
        ⟨1, "syringe", 10, true, 5, ""⟩ 3 false).1 =
      some (CartError.outOfStock "syringe" 5) ∧
    lineQty (Cart.add (Cart.add (Cart.init []) ⟨1, "syringe", 10, true, 5, ""⟩ 3 false).2
        ⟨1, "syringe", 10, true, 5, ""⟩ 3 false).2 "1" = some 6 ∧
    lineQty (Cart.add (Cart.add (Cart.init []) ⟨1, "syringe", 10, true, 5, ""⟩ 3 false).2
        ⟨1, "syringe", 10, true, 5, ""⟩ 3 false).2 "1" ≠ some 3 := by
  decide

/-- The first `add(p, q1)` on an empty cart: the line is inserted with the
snapshot fields and quantity `q1`, and saved. -/
theorem cart_add_first (p : Product) (q1 : Int) (hav : p.available = true)
    (h1 : 0 < q1) (h1s : q1 ≤ p.stock) :
    Cart.add (Cart.init []) p q1 false =
      (none,
        ⟨[(toString p.id, ⟨toString p.id, p.name, p.price, q1, p.image⟩)],
         [(toString p.id, ⟨toString p.id, p.name, p.price, q1, p.image⟩)], true, true⟩) := by
  simp [Cart.add, Cart.init, cartMutate, Cart.save, lookupLine, oldQty, updateQty,
    newLine, hav, not_lt.mpr h1s, not_le.mpr h1]

/-- C3 (amended): after `add(p, q1)` a second `add(p, q2, override=False)`
fails with `OutOfStock` when q1+q2 exceeds the stock and succeeds
otherwise — but in BOTH cases the stored line ends at quantity q1+q2: the
increment happens before the stock check and the raised `ValueError` does
not undo it, so on failure the cart is NOT left unchanged at q1. -/
theorem cart_add_no_override_spec (p : Product) (q1 q2 : Int)
    (hav : p.available = true) (h1 : 0 < q1) (h1s : q1 ≤ p.stock) (h2 : 0 < q2) :
    (p.stock < q1 + q2 →
      (Cart.add (Cart.add (Cart.init []) p q1 false).2 p q2 false).1 =
        some (CartError.outOfStock p.name p.stock)) ∧
    (q1 + q2 ≤ p.stock →
      (Cart.add (Cart.add (Cart.init []) p q1 false).2 p q2 false).1 = none) ∧
    lineQty (Cart.add (Cart.add (Cart.init []) p q1 false).2 p q2 false).2
      (toString p.id) = some (q1 + q2) := by
  rw [cart_add_first p q1 hav h1 h1s]
  have hsum : ¬ (q1 + q2 ≤ 0) := not_le.mpr (add_pos h1 h2)
  by_cases hc : p.stock < q1 + q2
  · refine ⟨fun _ => ?_, fun hle => absurd hc (not_lt.mpr hle), ?_⟩
    · simp [Cart.add, cartMutate, Cart.save, lookupLine, oldQty, updateQty, newLine,
        hav, hc, lineQty]
    · simp [Cart.add, cartMutate, Cart.save, lookupLine, oldQty, updateQty, newLine,
        hav, hc, hsum, lineQty]
  · refine ⟨fun hlt => absurd hlt hc, fun _ => ?_, ?_⟩ <;>
      simp [Cart.add, cartMutate, Cart.save, lookupLine, oldQty, updateQty, newLine,
        hav, hc, hsum, lineQty]

/-- Witness for C3 (amended): stock 5, `add(p, 3)` then
`add(p, 3, override=False)` fails with `OutOfStock` and the line ends at
quantity 6. -/
theorem cart_add_no_override_spec_witness :
    (Cart.add (Cart.add (Cart.init []) productSyringe 3 false).2
        productSyringe 3 false).1 =
      some (CartError.outOfStock "syringe" 5) ∧
    lineQty (Cart.add (Cart.add (Cart.init []) productSyringe 3 false).2
        productSyringe 3 false).2 "1" = some 6 := by
  have h := cart_add_no_override_spec productSyringe 3 3 rfl (by decide) (by decide)
    (by decide)
  exact ⟨h.1 (by decide), h.2.2.trans (by decide)⟩

theorem mem_updateQty {m : List (String × CartLine)} {pid : String} {q : Int}
    {pr : String × CartLine} (h : pr ∈ updateQty m pid q) :
    (pr ∈ m ∧ pr.1 ≠ pid) ∨ (pr.1 = pid ∧ pr.2.quantity = q) := by
  rcases List.mem_map.mp h with ⟨pr0, hpr0, heq⟩
  by_cases hk : (pr0.1 == pid) = true
  · right
    rw [if_pos hk] at heq
    subst heq
    exact ⟨by simpa using hk, rfl⟩
  · left
    rw [if_neg hk] at heq
    subst heq
    exact ⟨hpr0, by simpa using hk⟩

theorem mem_append_line {m : List (String × CartLine)} {pid : String}
    {line : CartLine} {pr : String × CartLine} (h : pr ∈ m ++ [(pid, line)]) :
    pr ∈ m ∨ pr = (pid, line) := by
  simpa using List.mem_append.mp h

theorem mem_delLine {m : List (String × CartLine)} {pid : String}
    {pr : String × CartLine} (h : pr ∈ delLine m pid) : pr ∈ m ∧ pr.1 ≠ pid := by
  have := List.mem_filter.mp h
  exact ⟨this.1, by simpa using this.2⟩

theorem lookupLine_delLine (m : List (String × CartLine)) (pid : String) :
    lookupLine (delLine m pid) pid = none := by
  unfold lookupLine
  rw [List.find?_eq_none.mpr, Option.map_none']
  intro x hx
  have := (mem_delLine hx).2
  simpa using this

theorem lookupLine_remove_self (s : CartState) (k : String) :
    lookupLine (Cart.remove s k).lines k = none := by
  unfold Cart.remove
  by_cases hp : (lookupLine s.lines k).isSome = true
  · rw [if_pos hp]
    exact lookupLine_delLine s.lines k
  · rw [if_neg hp]
    exact Option.not_isSome_iff_eq_none.mp hp

theorem lookupLine_isSome_of_mem {m : List (String × CartLine)}
    {pr : String × CartLine} (h : pr ∈ m) : (lookupLine m pr.1).isSome = true := by
  unfold lookupLine
  have hf : (m.find? (fun x => x.1 == pr.1)).isSome = true :=
    List.find?_isSome.mpr ⟨pr, h, by simp⟩
  cases hfe : m.find? (fun x => x.1 == pr.1) with
  | none => rw [hfe] at hf; cases hf
  | some a => simp [hfe]

/-- C8: every cart operation — `add` with or without override, `remove`,
`clear` — preserves the invariant that every stored line has positive
quantity; and an `add` whose resulting quantity is ≤ 0 (with stock ≥ 0, the
`PositiveIntegerField` constraint) returns no error and removes the line
instead of storing a zero- or negative-quantity line. -/
theorem cart_ops_preserve_qty_inv (st : CartState) (p : Product) (q : Int)
    (ov : Bool) (pid : String) (hstock : 0 ≤ p.stock) (h : cartQtyInv st) :
    cartQtyInv (Cart.add st p q ov).2 ∧
    cartQtyInv (Cart.remove st pid) ∧
    cartQtyInv (Cart.clear st) ∧
    (p.available = true →
      (if ov then q else oldQty st.lines (toString p.id) + q) ≤ 0 →
      (Cart.add st p q ov).1 = none ∧
      lineQty (Cart.add st p q ov).2 (toString p.id) = none) := by
  obtain ⟨hL, hS⟩ := h
  have hremop : cartQtyInv (Cart.remove st pid) := by
    unfold Cart.remove
    by_cases hp : (lookupLine st.lines pid).isSome = true
    · rw [if_pos hp]
      exact ⟨fun pr hpr => hL pr (mem_delLine hpr).1,
             fun pr hpr => hL pr (mem_delLine hpr).1⟩
    · rw [if_neg hp]
      exact ⟨hL, hS⟩
  have hclear : cartQtyInv (Cart.clear st) := by
    refine ⟨hL, ?_⟩
    intro pr hpr
    simp [Cart.clear] at hpr
  by_cases hav : p.available = true
  case neg =>
    have hav2 : p.available = false := by
      cases hb : p.available
      · rfl
      · exact absurd hb hav
    refine ⟨?_, hremop, hclear, fun hcontra => absurd hcontra hav⟩
    simp only [Cart.add, hav2, if_pos rfl]
    exact ⟨hL, hS⟩
  case pos =>
    have hav' : ¬ (p.available = false) := by simp [hav]
    have hupd : ∀ (b : List (String × CartLine)) (nq : Int), 0 < nq →
        (∀ pr ∈ b, 0 < pr.2.quantity) →
        ∀ pr ∈ updateQty b (toString p.id) nq, 0 < pr.2.quantity := by
      intro b nq h0 hb pr hpr
      rcases mem_updateQty hpr with ⟨hm, _⟩ | ⟨_, hq2⟩
      · exact hb pr hm
      · rw [hq2]; exact h0
    have happ : ∀ (b : List (String × CartLine)) (nq : Int), 0 < nq →
        (∀ pr ∈ b, 0 < pr.2.quantity) →
        ∀ pr ∈ updateQty (b ++ [(toString p.id, newLine p)]) (toString p.id) nq,
          0 < pr.2.quantity := by
      intro b nq h0 hb pr hpr
      rcases mem_updateQty hpr with ⟨hm, hne⟩ | ⟨_, hq2⟩
      · rcases mem_append_line hm with hm2 | rfl
        · exact hb pr hm2
        · exact absurd rfl hne
      · rw [hq2]; exact h0
    have hkeyedU : ∀ (b : List (String × CartLine)) (nq : Int),
        (∀ pr ∈ b, 0 < pr.2.quantity) →
        ∀ pr ∈ updateQty b (toString p.id) nq, pr.1 ≠ toString p.id →
          0 < pr.2.quantity := by
      intro b nq hb pr hpr hne
      rcases mem_updateQty hpr with ⟨hm, _⟩ | ⟨heq, _⟩
      · exact hb pr hm
      · exact absurd heq hne
    have hkeyedA : ∀ (b : List (String × CartLine)) (nq : Int),
        (∀ pr ∈ b, 0 < pr.2.quantity) →
        ∀ pr ∈ updateQty (b ++ [(toString p.id, newLine p)]) (toString p.id) nq,
          pr.1 ≠ toString p.id → 0 < pr.2.quantity := by
      intro b nq hb pr hpr hne
      rcases mem_updateQty hpr with ⟨hm, _⟩ | ⟨heq, _⟩
      · rcases mem_append_line hm with hm2 | rfl
        · exact hb pr hm2
        · exact absurd rfl hne
      · exact absurd heq hne
    have hsaveremove : ∀ (s : CartState),
        (∀ pr ∈ s.lines, pr.1 ≠ toString p.id → 0 < pr.2.quantity) →
        cartQtyInv (Cart.save (Cart.remove s (toString p.id))) := by
      intro s hs
      unfold Cart.remove
      by_cases hp : (lookupLine s.lines (toString p.id)).isSome = true
      · rw [if_pos hp]
        exact ⟨fun pr hpr => hs pr (mem_delLine hpr).1 (mem_delLine hpr).2,
               fun pr hpr => hs pr (mem_delLine hpr).1 (mem_delLine hpr).2⟩
      · rw [if_neg hp]
        have hnok : ∀ pr ∈ s.lines, pr.1 ≠ toString p.id := by
          intro pr hpr heq
          exact hp (heq ▸ lookupLine_isSome_of_mem hpr)
        exact ⟨fun pr hpr => hs pr hpr (hnok pr hpr),
               fun pr hpr => hs pr hpr (hnok pr hpr)⟩
    refine ⟨?_, hremop, hclear, ?_⟩
    · -- add preserves the invariant
      by_cases hins : (lookupLine st.lines (toString p.id)).isSome = true <;>
        by_cases hlt : p.stock < (if ov then q else oldQty st.lines (toString p.id) + q)
      · -- present, out of stock: state mutated but not saved
        have h0 : 0 < (if ov then q else oldQty st.lines (toString p.id) + q) :=
          lt_of_le_of_lt hstock hlt
        simp only [Cart.add, if_neg hav', hins, if_pos rfl, if_true, hlt, cartMutate]
        refine ⟨hupd st.lines _ h0 hL, ?_⟩
        by_cases hal : st.aliased = true
        · simp only [hal, if_pos rfl, if_true]
          exact hupd st.session _ h0 hS
        · simp only [hal, if_neg hal, if_false]
          exact hS
      · -- present, within stock
        by_cases hle : (if ov then q else oldQty st.lines (toString p.id) + q) ≤ 0
        · simp only [Cart.add, if_neg hav', hins, if_pos rfl, if_true, if_neg hlt, hle,
            cartMutate]
          exact hsaveremove _ (by
            intro pr hpr hne
            exact hkeyedU st.lines _ hL pr hpr hne)
        · simp only [Cart.add, if_neg hav', hins, if_pos rfl, if_true, if_neg hlt,
            if_neg hle, cartMutate, Cart.save]
          have h0 : 0 < (if ov then q else oldQty st.lines (toString p.id) + q) :=
            lt_of_not_le hle
          exact ⟨hupd st.lines _ h0 hL, hupd st.lines _ h0 hL⟩
      · -- absent, out of stock
        have h0 : 0 < (if ov then q else oldQty st.lines (toString p.id) + q) :=
          lt_of_le_of_lt hstock hlt
        simp only [Cart.add, if_neg hav', hins, if_neg hins, if_false, hlt, cartMutate]
        refine ⟨happ st.lines _ h0 hL, ?_⟩
        by_cases hal : st.aliased = true
        · simp only [hal, if_pos rfl, if_true]
          exact happ st.session _ h0 hS
        · simp only [hal, if_neg hal, if_false]
          exact hS
      · -- absent, within stock
        by_cases hle : (if ov then q else oldQty st.lines (toString p.id) + q) ≤ 0
        · simp only [Cart.add, if_neg hav', hins, if_neg hins, if_false, if_neg hlt, hle,
            cartMutate]
          exact hsaveremove _ (by
            intro pr hpr hne
            exact hkeyedA st.lines _ hL pr hpr hne)
        · simp only [Cart.add, if_neg hav', hins, if_neg hins, if_false, if_neg hlt,
            if_neg hle, cartMutate, Cart.save]
          have h0 : 0 < (if ov then q else oldQty st.lines (toString p.id) + q) :=
            lt_of_not_le hle
          exact ⟨happ st.lines _ h0 hL, happ st.lines _ h0 hL⟩
    · -- an add whose resulting quantity is ≤ 0 removes the line, no error
      intro _ hle
      have hnlt : ¬ (p.stock < (if ov then q else oldQty st.lines (toString p.id) + q)) :=
        not_lt.mpr (le_trans hle hstock)
      constructor
      · by_cases hins : (lookupLine st.lines (toString p.id)).isSome = true
        · simp only [Cart.add, if_neg hav', hins, if_pos rfl, if_true,
            if_neg hnlt, if_pos hle]
        · simp only [Cart.add, if_neg hav', hins, if_false,
            if_neg hnlt, if_pos hle]
      · by_cases hins : (lookupLine st.lines (toString p.id)).isSome = true
        · simp only [Cart.add, if_neg hav', hins, if_pos rfl, if_true,
            if_neg hnlt, if_pos hle, lineQty, Cart.save]
          rw [lookupLine_remove_self, Option.map_none']
        · simp only [Cart.add, if_neg hav', hins, if_false,
            if_neg hnlt, if_pos hle, lineQty, Cart.save]
          rw [lookupLine_remove_self, Option.map_none']

/-- Witness for C8: adding -5 of product A to the cart holding 2 of it
(resulting quantity -3) returns no error, removes the line, and the
invariant still holds. -/
theorem cart_ops_preserve_qty_inv_witness :
    cartQtyInv (Cart.add stAB productA (-5) false).2 ∧
    (Cart.add stAB productA (-5) false).1 = none ∧
    lineQty (Cart.add stAB productA (-5) false).2 "1" = none := by
  have h := cart_ops_preserve_qty_inv stAB productA (-5) false "2" (by decide)
    ⟨by decide, by decide⟩
  exact ⟨h.1, (h.2.2.2 rfl (by decide)).1, (h.2.2.2 rfl (by decide)).2⟩

/-- Helper for C9: appending a vote row for a review bumps its count. -/
theorem countVotes_append_vote (l : List (Nat × Nat)) (rid u : Nat) :
    countVotes (l ++ [(rid, u)]) rid = countVotes l rid + 1 := by
  simp [countVotes, List.filter_append]

theorem countVotes_erase_mem (votes : List (Nat × Nat)) (rid u : Nat)
    (hmem : (rid, u) ∈ votes) :
    countVotes votes rid = countVotes (votes.erase (rid, u)) rid + 1 := by
  obtain ⟨l1, l2, hnl1, hv, he⟩ := List.exists_erase_eq hmem
  rw [he, hv]
  simp [countVotes, List.filter_append, List.filter_cons]
  omega

/-- C9: `toggle_helpful` fails with `SelfVote` for the review's owner;
for a non-owner, each call returns the resulting helpful-count together
with the caller's current vote state, and two consecutive calls return the
helpful-count to its original value (the second call removes the vote cast
by the first).  The uniqueness hypothesis is the `unique_together`
constraint on `ReviewHelpful`. -/
theorem toggle_helpful_correct (votes : List (Nat × Nat)) (review : ReviewRec)
    (user : Nat) (huniq : votes.count (review.id, user) ≤ 1) :
    (review.user = user → mark_helpful votes review user = (HelpfulResult.selfVote, votes)) ∧
    (review.user ≠ user →
      ((mark_helpful votes review user).1 =
        HelpfulResult.toggled
          (decide ((review.id, user) ∈ (mark_helpful votes review user).2))
          (countVotes (mark_helpful votes review user).2 review.id)) ∧
      ((mark_helpful (mark_helpful votes review user).2 review user).1 =
        HelpfulResult.toggled
          (decide ((review.id, user) ∈
            (mark_helpful (mark_helpful votes review user).2 review user).2))
          (countVotes (mark_helpful (mark_helpful votes review user).2 review user).2
            review.id)) ∧
      countVotes (mark_helpful (mark_helpful votes review user).2 review user).2 review.id =
        countVotes votes review.id) := by
  constructor
  · intro hown
    simp [mark_helpful, hown]
  · intro hno
    by_cases hmem : (review.id, user) ∈ votes
    · have h1 : mark_helpful votes review user =
          (HelpfulResult.toggled false
            (countVotes (votes.erase (review.id, user)) review.id),
           votes.erase (review.id, user)) := by
        simp [mark_helpful, hno, hmem]
      have hzero : (votes.erase (review.id, user)).count (review.id, user) = 0 := by
        have := List.count_erase_self (review.id, user) votes
        omega
      have hnotin : (review.id, user) ∉ votes.erase (review.id, user) :=
        List.count_eq_zero.mp hzero
      have h2 : mark_helpful (votes.erase (review.id, user)) review user =
          (HelpfulResult.toggled true
            (countVotes (votes.erase (review.id, user) ++ [(review.id, user)]) review.id),
           votes.erase (review.id, user) ++ [(review.id, user)]) := by
        simp [mark_helpful, hno, hnotin]
      rw [h1]
      refine ⟨?_, ?_, ?_⟩
      · simp [decide_eq_false hnotin]
      · rw [h2]
        simp
      · rw [h2]
        rw [countVotes_append_vote, ← countVotes_erase_mem votes review.id user hmem]
    · have h1 : mark_helpful votes review user =
          (HelpfulResult.toggled true
            (countVotes (votes ++ [(review.id, user)]) review.id),
           votes ++ [(review.id, user)]) := by
        simp [mark_helpful, hno, hmem]
      have hmem2 : (review.id, user) ∈ votes ++ [(review.id, user)] := by simp
      have herase : (votes ++ [(review.id, user)]).erase (review.id, user) = votes := by
        rw [List.erase_append_right _ hmem]
        simp
      have h2 : mark_helpful (votes ++ [(review.id, user)]) review user =
          (HelpfulResult.toggled false (countVotes votes review.id), votes) := by
        simp [mark_helpful, hno, hmem2, herase]
      rw [h1]
      refine ⟨?_, ?_, ?_⟩
      · simp
      · rw [h2]
        simp [decide_eq_false hmem]
      · rw [h2]

/-- Witness for C9: user 9 toggling twice on review 1 owned by user 5
returns the count to its original value; the first call reports an active
vote with count 1. -/
theorem toggle_helpful_correct_witness :
    countVotes (mark_helpful (mark_helpful [] ⟨1, 5⟩ 9).2 ⟨1, 5⟩ 9).2 1 = countVotes [] 1 ∧
    (mark_helpful [] ⟨1, 5⟩ 9).1 = HelpfulResult.toggled true 1 := by
  have h := (toggle_helpful_correct [] ⟨1, 5⟩ 9 (by decide)).2 (by decide)
  exact ⟨h.2.2, h.1.trans (by decide)⟩

/-- Helper for C6: no items restore nothing. -/
theorem restoredQty_nil (i : Nat) : restoredQty [] i = 0 := rfl

/-- Helper for C6: the stock-restoration fold adds, to every product row,
exactly the total quantity of the order's items for that product. -/
theorem restoreStock_eq (items : List OrderItemRec) (catalog : List Product) :
    restoreStock catalog items =
      catalog.map (fun p => { p with stock := p.stock + restoredQty items p.id }) := by
  induction items generalizing catalog with
  | nil =>
    show catalog = catalog.map _
    conv_lhs => rw [← List.map_id catalog]
    exact List.map_congr_left (by
      intro p _
      simp [restoredQty])
  | cons it rest ih =>
    show restoreStock (catalog.map _) rest = _
    rw [ih, List.map_map]
    apply List.map_congr_left
    intro p _
    by_cases hid : p.id = it.product_id
    · simp only [Function.comp_apply, if_pos hid, restoredQty, List.filter_cons]
      have : (it.product_id == p.id) = true := by simp [hid]
      simp [this, add_assoc]
    · simp only [Function.comp_apply, if_neg hid, restoredQty, List.filter_cons]
      have : (it.product_id == p.id) = false := by simp [Ne.symm hid]
      simp [this]

/-- C6: `order_cancel` succeeds only when the order is found for the
calling user and its status is pending or processing, in which case every
item's product stock is incremented by exactly that item's quantity (per
product: the total over its items) and the status becomes `cancelled`;
for any other status it fails with `InvalidTransition` and the store —
catalog stock included — is completely unchanged, as it is when the order
does not belong to the caller. -/
theorem order_cancel_correct (store : StoreState) (user orderId : Nat) :
    (store.orders.find? (fun o => o.id == orderId && o.user == user) = none →
      order_cancel user orderId store = (CancelResult.notFound, store)) ∧
    (∀ o, store.orders.find? (fun o2 => o2.id == orderId && o2.user == user) = some o →
      ((o.status = "pending" ∨ o.status = "processing") →
        (order_cancel user orderId store).1 = CancelResult.cancelled ∧
        (order_cancel user orderId store).2.catalog =
          store.catalog.map
            (fun p => { p with stock := p.stock + restoredQty o.items p.id }) ∧
        (order_cancel user orderId store).2.orders =
          store.orders.map
            (fun o2 => if o2.id = orderId then { o2 with status := "cancelled" } else o2)) ∧
      ((o.status ≠ "pending" ∧ o.status ≠ "processing") →
        order_cancel user orderId store = (CancelResult.invalidTransition, store))) := by
  constructor
  · intro hnone
    simp [order_cancel, hnone]
  · intro o ho
    constructor
    · intro hstat
      have hcond : ¬ (o.status ≠ "pending" ∧ o.status ≠ "processing") := by
        rcases hstat with hs | hs <;> simp [hs]
      simp only [order_cancel, ho, if_neg hcond]
      exact ⟨trivial, restoreStock_eq o.items store.catalog, trivial⟩
    · intro hcond
      simp only [order_cancel, ho, if_pos hcond]

/-- Witness for C6: cancelling the pending order of user 7 restores 2
units of product 1 (stock 5 becomes 7) and marks the order cancelled. -/
theorem order_cancel_correct_witness :
    (order_cancel 7 11 storeCancel).1 = CancelResult.cancelled ∧
    (order_cancel 7 11 storeCancel).2.catalog = [⟨1, "A", 10, true, 7, ""⟩] ∧
    (order_cancel 7 11 storeCancel).2.orders = [⟨11, 7, "cancelled", [⟨1, 10, 2⟩]⟩] := by
  have h := ((order_cancel_correct storeCancel 7 11).2 orderPending (by decide)).1
    (Or.inl rfl)
  exact ⟨h.1, h.2.1.trans (by decide), h.2.2.trans (by decide)⟩

/-- Helper for C5: when every line's product resolves, the cart iteration
yields one enriched record per line, raises nothing and removes nothing. -/
theorem cartIterAux_all_found (catalog : List Product) (st : CartState)
    (L : List (String × CartLine))
    (h : ∀ pr ∈ L, (findProduct catalog pr.1).isSome = true) :
    cartIterAux catalog st L = (L.filterMap (enrichWith catalog), false, st) := by
  induction L with
  | nil => rfl
  | cons pr rest ih =>
    have hpr := h pr (List.mem_cons_self pr rest)
    cases hf : findProduct catalog pr.1 with
    | none => rw [hf] at hpr; cases hpr
    | some p =>
      have hrest : ∀ x ∈ rest, (findProduct catalog x.1).isSome = true :=
        fun x hx => h x (List.mem_cons_of_mem pr hx)
      simp [cartIterAux, hf, ih hrest, List.filterMap_cons, enrichWith]

theorem enrich_keys (catalog : List Product) (L : List (String × CartLine))
    (h : ∀ pr ∈ L, (findProduct catalog pr.1).isSome = true) :
    (L.filterMap (enrichWith catalog)).map (fun e => toString e.product.id) =
      L.map Prod.fst := by
  induction L with
  | nil => rfl
  | cons pr rest ih =>
    have hpr := h pr (List.mem_cons_self pr rest)
    cases hf : findProduct catalog pr.1 with
    | none => rw [hf] at hpr; cases hpr
    | some p =>
      have hrest : ∀ x ∈ rest, (findProduct catalog x.1).isSome = true :=
        fun x hx => h x (List.mem_cons_of_mem pr hx)
      have hkey : toString p.id = pr.1 := by
        have := List.find?_some hf
        simpa using this
      simp [List.filterMap_cons, enrichWith, hf, mkEnriched, hkey, ih hrest]

theorem enrich_price_qty (catalog : List Product) (L : List (String × CartLine))
    (h : ∀ pr ∈ L, (findProduct catalog pr.1).isSome = true) :
    (L.filterMap (enrichWith catalog)).map (fun e => (e.price, e.quantity)) =
      L.map (fun pr => (pr.2.price, pr.2.quantity)) := by
  induction L with
  | nil => rfl
  | cons pr rest ih =>
    have hpr := h pr (List.mem_cons_self pr rest)
    cases hf : findProduct catalog pr.1 with
    | none => rw [hf] at hpr; cases hpr
    | some p =>
      have hrest : ∀ x ∈ rest, (findProduct catalog x.1).isSome = true :=
        fun x hx => h x (List.mem_cons_of_mem pr hx)
      simp [List.filterMap_cons, enrichWith, hf, mkEnriched, ih hrest]

theorem mem_enrich (catalog : List Product) (L : List (String × CartLine))
    (e : Enriched) (h : e ∈ L.filterMap (enrichWith catalog)) :
    ∃ pr ∈ L, findProduct catalog pr.1 = some e.product ∧ e = mkEnriched e.product pr := by
  rcases List.mem_filterMap.mp h with ⟨pr, hpr, he⟩
  cases hf : findProduct catalog pr.1 with
  | none => rw [enrichWith, hf] at he; cases he
  | some p =>
    rw [enrichWith, hf] at he
    have he2 : mkEnriched p pr = e := by simpa using he
    subst he2
    exact ⟨pr, hpr, hf, rfl⟩

theorem find?_enriched_of_nodup (ys : List Enriched) (e : Enriched) (he : e ∈ ys)
    (hnd : (ys.map (fun x => x.product.id)).Nodup) :
    ys.find? (fun x => x.product.id == e.product.id) = some e := by
  induction ys with
  | nil => cases he
  | cons a rest ih =>
    rcases List.mem_cons.mp he with rfl | hmem
    · simp [List.find?_cons]
    · rw [List.map_cons] at hnd
      have hnd2 := List.nodup_cons.mp hnd
      have hne : a.product.id ≠ e.product.id := by
        intro hcontra
        exact hnd2.1 (hcontra ▸ List.mem_map_of_mem (fun x => x.product.id) hmem)
      rw [List.find?_cons_of_neg _ (by simpa using hne)]
      exact ih hmem hnd2.2

theorem applyDecrements_eq (ys : List Enriched) (catalog : List Product)
    (hc : ∀ e ∈ ys, (is_valid_cart_item e && decide (e.quantity ≤ e.product.stock)) = true)
    (hnd : (ys.map (fun x => x.product.id)).Nodup) :
    applyDecrements catalog ys =
      catalog.map (fun p =>
        match ys.find? (fun x => x.product.id == p.id) with
        | some e => { p with stock := e.product.stock - e.quantity }
        | none => p) := by
  induction ys generalizing catalog with
  | nil =>
    show catalog = catalog.map _
    conv_lhs => rw [← List.map_id catalog]
    exact List.map_congr_left (by intro p _; simp)
  | cons e rest ih =>
    have hce := hc e (List.mem_cons_self e rest)
    have hcrest : ∀ x ∈ rest,
        (is_valid_cart_item x && decide (x.quantity ≤ x.product.stock)) = true :=
      fun x hx => hc x (List.mem_cons_of_mem e hx)
    rw [List.map_cons] at hnd
    have hnd2 := List.nodup_cons.mp hnd
    have hvq : is_valid_cart_item e = true ∧ e.quantity ≤ e.product.stock := by
      simpa using hce
    have hstep : applyDecrements catalog (e :: rest) =
        applyDecrements (catalog.map (fun p =>
          if p.id = e.product.id then { p with stock := e.product.stock - e.quantity }
          else p)) rest := by
      simp [applyDecrements, hvq.1, hvq.2]
    rw [hstep, ih _ hcrest hnd2.2, List.map_map]
    apply List.map_congr_left
    intro p hp
    simp only [Function.comp_apply]
    by_cases hid : p.id = e.product.id
    · rw [if_pos hid]
      have hnone : rest.find? (fun x => x.product.id == p.id) = none := by
        rw [List.find?_eq_none]
        intro x hx
        simp only [beq_iff_eq]
        intro hxe
        exact hnd2.1 ((hxe.trans hid) ▸ List.mem_map_of_mem (fun y => y.product.id) hx)
      rw [List.find?_cons_of_pos _ (by simpa using hid.symm), hnone]
    · rw [if_neg hid]
      rw [List.find?_cons_of_neg _ (by simpa using fun hcontra => hid hcontra.symm)]

theorem find?_map_local {α β : Type} (f : α → β) (p : β → Bool) (l : List α) :
    (l.map f).find? p = (l.find? (fun a => p (f a))).map f := by
  induction l with
  | nil => rfl
  | cons a rest ih =>
    cases hpa : p (f a)
    · simp [List.find?_cons, hpa, ih]
    · simp [List.find?_cons, hpa]

theorem findProduct_patched (catalog : List Product) (ys : List Enriched) (key : String) :
    findProduct (catalog.map (fun p =>
      match ys.find? (fun x => x.product.id == p.id) with
      | some e => { p with stock := e.product.stock - e.quantity }
      | none => p)) key =
      (findProduct catalog key).map (fun p =>
        match ys.find? (fun x => x.product.id == p.id) with
        | some e => { p with stock := e.product.stock - e.quantity }
        | none => p) := by
  unfold findProduct
  rw [find?_map_local]
  congr 2
  funext a
  cases hfa : ys.find? (fun x => x.product.id == a.id) with
  | none => simp [hfa]
  | some e => simp [hfa]

/-- C5: for a cart whose lines all validate (positive quantity and price,
distinct keys) and have sufficient live stock, `order_create` succeeds:
it decrements each line's product stock by exactly that line's quantity,
persists one `OrderItem` per line carrying the cart's snapshot price and
quantity, produces an order whose total equals the cart total, and leaves
the session-backed Cart Store empty. -/
theorem order_create_round_trip (user newOrderId : Nat) (st : CartState)
    (store : StoreState)
    (hne : st.lines ≠ [])
    (hkeys : (st.lines.map Prod.fst).Nodup)
    (hfresh : ∀ o ∈ store.orders, o.id ≠ newOrderId)
    (hq : ∀ pr ∈ st.lines, 0 < pr.2.quantity)
    (hp : ∀ pr ∈ st.lines, 0 < pr.2.price)
    (hres : ∀ pr ∈ st.lines, ∃ p, findProduct store.catalog pr.1 = some p ∧
      pr.2.quantity ≤ p.stock) :
    (order_create user st store newOrderId).1 = OrderResult.success newOrderId ∧
    (order_create user st store newOrderId).2.1.session = [] ∧
    (order_create user st store newOrderId).2.2.orders =
      store.orders ++ [⟨newOrderId, user, "pending",
        orderItemsOf (st.lines.filterMap (enrichWith store.catalog))⟩] ∧
    (orderItemsOf (st.lines.filterMap (enrichWith store.catalog))).map
        (fun it => (it.price, it.quantity)) =
      st.lines.map (fun pr => (pr.2.price, pr.2.quantity)) ∧
    orderTotal ⟨newOrderId, user, "pending",
        orderItemsOf (st.lines.filterMap (enrichWith store.catalog))⟩ =
      Cart.get_total_price st ∧
    (∀ pr ∈ st.lines, ∀ p, findProduct store.catalog pr.1 = some p →
      findProduct (order_create user st store newOrderId).2.2.catalog pr.1 =
        some { p with stock := p.stock - pr.2.quantity }) := by
  have hfound : ∀ pr ∈ st.lines, (findProduct store.catalog pr.1).isSome = true := by
    intro pr hpr
    obtain ⟨p, hp1, _⟩ := hres pr hpr
    simp [hp1]
  have hefacts : ∀ e ∈ st.lines.filterMap (enrichWith store.catalog),
      0 < e.quantity ∧ 0 < e.price ∧ e.quantity ≤ e.product.stock := by
    intro e he
    obtain ⟨pr, hpr, hfp, hee⟩ := mem_enrich store.catalog st.lines e he
    obtain ⟨p2, hp2, hle⟩ := hres pr hpr
    have hpp : p2 = e.product := by
      rw [hfp] at hp2
      exact (Option.some.inj hp2).symm
    have hq1 : e.quantity = pr.2.quantity := by
      rw [hee]
      rfl
    have hp1 : e.price = pr.2.price := by
      rw [hee]
      rfl
    refine ⟨?_, ?_, ?_⟩
    · rw [hq1]
      exact hq pr hpr
    · rw [hp1]
      exact hp pr hpr
    · rw [hq1]
      exact hpp ▸ hle
  have hcond : ∀ e ∈ st.lines.filterMap (enrichWith store.catalog),
      (is_valid_cart_item e && decide (e.quantity ≤ e.product.stock)) = true := by
    intro e he
    obtain ⟨h1, h2, h3⟩ := hefacts e he
    simp [is_valid_cart_item, h1, h2, h3]
  have herrs : stockErrorsOf (st.lines.filterMap (enrichWith store.catalog)) = [] := by
    unfold stockErrorsOf
    rw [List.filter_eq_nil_iff.mpr, List.map_nil]
    intro e he
    obtain ⟨h1, h2, h3⟩ := hefacts e he
    simp [not_lt.mpr h3]
  have hitems : orderItemsOf (st.lines.filterMap (enrichWith store.catalog)) =
      (st.lines.filterMap (enrichWith store.catalog)).map
        (fun e => ⟨e.product.id, e.price, e.quantity⟩) := by
    unfold orderItemsOf
    rw [List.filter_eq_self.mpr hcond]
  have hysne : st.lines.filterMap (enrichWith store.catalog) ≠ [] := by
    intro hcontra
    rcases hl : st.lines with _ | ⟨pr, rest⟩
    · exact hne hl
    · have hpr : pr ∈ st.lines := by
        rw [hl]
        exact List.mem_cons_self pr rest
      obtain ⟨p, hp1, _⟩ := hres pr hpr
      rw [hl, List.filterMap_cons] at hcontra
      simp [enrichWith, hp1] at hcontra
  have hitemsne : orderItemsOf (st.lines.filterMap (enrichWith store.catalog)) ≠ [] := by
    rw [hitems]
    simpa using hysne
  have hlen : ¬ (Cart.len st = 0) := by
    unfold Cart.len
    rw [List.filter_eq_self.mpr (fun pr hpr => decide_eq_true (hq pr hpr))]
    have hall : ∀ x ∈ st.lines.map (fun pr => pr.2.quantity), 0 < x := by
      intro x hx
      rcases List.mem_map.mp hx with ⟨pr, hpr, rfl⟩
      exact hq pr hpr
    have hmapne : st.lines.map (fun pr => pr.2.quantity) ≠ [] := by
      simpa using hne
    have hpos := List.sum_pos _ hall hmapne
    omega
  have hiter : ∀ st2 : CartState, cartIterAux store.catalog st2 st.lines =
      (st.lines.filterMap (enrichWith store.catalog), false, st2) :=
    fun st2 => cartIterAux_all_found store.catalog st2 st.lines hfound
  have hkeyids : ((st.lines.filterMap (enrichWith store.catalog)).map
      (fun x => x.product.id)).Nodup := by
    have h1 := enrich_keys store.catalog st.lines hfound
    have h2 : ((st.lines.filterMap (enrichWith store.catalog)).map
        (fun x => x.product.id)).map toString = st.lines.map Prod.fst := by
      rw [List.map_map, ← h1]
      apply List.map_congr_left
      intro e _
      rfl
    exact List.Nodup.of_map toString (h2 ▸ hkeys)
  have horders : (store.orders ++ [(⟨newOrderId, user, "pending", []⟩ : OrderRec)]).map
      (fun o => if o.id = newOrderId then
        { o with items := orderItemsOf (st.lines.filterMap (enrichWith store.catalog)) }
      else o) =
      store.orders ++ [⟨newOrderId, user, "pending",
        orderItemsOf (st.lines.filterMap (enrichWith store.catalog))⟩] := by
    rw [List.map_append]
    congr 1
    · conv_rhs => rw [← List.map_id store.orders]
      apply List.map_congr_left
      intro o ho
      rw [if_neg (hfresh o ho)]
      rfl
    · simp
  have hmain : order_create user st store newOrderId =
      (OrderResult.success newOrderId, Cart.clear st,
        ⟨applyDecrements store.catalog (st.lines.filterMap (enrichWith store.catalog)),
         store.orders ++ [⟨newOrderId, user, "pending",
           orderItemsOf (st.lines.filterMap (enrichWith store.catalog))⟩]⟩) := by
    unfold order_create
    rw [if_neg hlen]
    simp [Cart.iter, hiter, herrs, hitemsne, horders]
  have hpairs : (orderItemsOf (st.lines.filterMap (enrichWith store.catalog))).map
      (fun it => (it.price, it.quantity)) =
      st.lines.map (fun pr => (pr.2.price, pr.2.quantity)) := by
    rw [hitems, List.map_map, ← enrich_price_qty store.catalog st.lines hfound]
    apply List.map_congr_left
    intro e _
    rfl
  have htotal : orderTotal ⟨newOrderId, user, "pending",
      orderItemsOf (st.lines.filterMap (enrichWith store.catalog))⟩ =
      Cart.get_total_price st := by
    unfold orderTotal Cart.get_total_price
    rw [List.filter_eq_self.mpr (fun pr hpr => decide_eq_true (hq pr hpr))]
    have h1 : (orderItemsOf (st.lines.filterMap (enrichWith store.catalog))).map
        (fun it => it.price * (it.quantity : Rat)) =
        st.lines.map (fun pr => pr.2.price * (pr.2.quantity : Rat)) := by
      have h2 : (orderItemsOf (st.lines.filterMap (enrichWith store.catalog))).map
          (fun it => it.price * (it.quantity : Rat)) =
          ((orderItemsOf (st.lines.filterMap (enrichWith store.catalog))).map
            (fun it => (it.price, it.quantity))).map
              (fun pq => pq.1 * (pq.2 : Rat)) := by
        rw [List.map_map]
        apply List.map_congr_left
        intro it _
        rfl
      rw [h2, hpairs, List.map_map]
      apply List.map_congr_left
      intro pr _
      rfl
    rw [h1]
  have hstock : ∀ pr ∈ st.lines, ∀ p, findProduct store.catalog pr.1 = some p →
      findProduct (applyDecrements store.catalog
        (st.lines.filterMap (enrichWith store.catalog))) pr.1 =
        some { p with stock := p.stock - pr.2.quantity } := by
    intro pr hpr p hfp
    rw [applyDecrements_eq _ store.catalog hcond hkeyids, findProduct_patched, hfp]
    have he0 : mkEnriched p pr ∈ st.lines.filterMap (enrichWith store.catalog) := by
      apply List.mem_filterMap.mpr
      exact ⟨pr, hpr, by simp [enrichWith, hfp]⟩
    have hfind : (st.lines.filterMap (enrichWith store.catalog)).find?
        (fun x => x.product.id == p.id) = some (mkEnriched p pr) := by
      have := find?_enriched_of_nodup _ (mkEnriched p pr) he0 hkeyids
      simpa [mkEnriched] using this
    rw [Option.map_some', hfind]
    rfl
  refine ⟨?_, ?_, ?_, hpairs, htotal, ?_⟩
  · rw [hmain]
  · rw [hmain]
    rfl
  · rw [hmain]
  · intro pr hpr p hfp
    rw [hmain]
    exact hstock pr hpr p hfp

/-- Witness for C5: lines (A, qty 2, price 10.00) and (B, qty 1,
price 5.00) give an order with total 25.00, stock of A drops 5 to 3 and of
B 4 to 3, and the session is emptied. -/
theorem order_create_round_trip_witness :
    (order_create 7 stAB storeAB 42).1 = OrderResult.success 42 ∧
    (order_create 7 stAB storeAB 42).2.1.session = [] ∧
    orderTotal ⟨42, 7, "pending",
      orderItemsOf (stAB.lines.filterMap (enrichWith storeAB.catalog))⟩ = 25 ∧
    findProduct (order_create 7 stAB storeAB 42).2.2.catalog "1" =
      some ⟨1, "A", 10, true, 3, ""⟩ ∧
    findProduct (order_create 7 stAB storeAB 42).2.2.catalog "2" =
      some ⟨2, "B", 5, true, 3, ""⟩ := by
  have hres : ∀ pr ∈ stAB.lines, ∃ p, findProduct storeAB.catalog pr.1 = some p ∧
      pr.2.quantity ≤ p.stock := by
    intro pr hpr
    simp only [stAB, List.mem_cons, List.not_mem_nil, or_false] at hpr
    rcases hpr with rfl | rfl
    · exact ⟨productA, rfl, by decide⟩
    · exact ⟨productB, rfl, by decide⟩
  have h := order_create_round_trip 7 42 stAB storeAB (by decide) (by decide)
    (by decide) (by decide) (by norm_num [stAB]) hres
  obtain ⟨h1, h2, h3, h4, h5, h6⟩ := h
  refine ⟨h1, h2, ?_, ?_, ?_⟩
  · refine h5.trans ?_
    norm_num [Cart.get_total_price, stAB]
  · have := h6 ("1", ⟨"1", "A", 10, 2, ""⟩) (by decide) productA rfl
    exact this.trans (by decide)
  · have := h6 ("2", ⟨"2", "B", 5, 1, ""⟩) (by decide) productB rfl
    exact this.trans (by decide)
